import Mathlib

/-!
Verification development for the market-conditions collector.

Part 1 models the runtime lifecycle controller
(`market_data_collector/runtime.py`): the file-lock acquisition/release,
`start`/`stop`, the reader reference count and the debounced auto-stop.
Part 2 models the sharded persistence layer (`src/database.py`):
shard-path routing, per-kind upsert keys of `insert_data`, and the
newest-first bounded reads of `get_data`.

Conventions of the embedding: each Python method becomes a pure state
transformer over an explicit state record; points where the source consults
the outside world (does another process hold the flock? did the orchestrator
startup coroutine succeed within its 5 s timeout?) become boolean parameters
of the transformer.
-/

namespace MarketConditions

/-! ## Runtime controller state (`RuntimeController.__init__`)

Fields mirror the instance attributes used by the modelled methods:
`_running`, `_lock_file` (is the handle held, i.e. not `None`), the existence
and text content of the lock file at `._lock_file_path`, `_reader_count`
(a Python `int`, hence `Int` here), `_auto_stop_scheduled`, and whether the
background event loop exists and is running (`_loop`/`_loop_thread`). -/

structure RState where
  running : Bool
  lockHandle : Bool
  lockPathExists : Bool
  lockContent : String
  readerCount : Int
  autoStopScheduled : Bool
  loopRunning : Bool
  deriving DecidableEq, Repr

/-- The state of a freshly constructed `RuntimeController` (count 0, not
running, no lock handle, no event loop, nothing scheduled). -/
def freshState : RState :=
  { running := false, lockHandle := false, lockPathExists := false,
    lockContent := "", readerCount := 0, autoStopScheduled := false,
    loopRunning := false }

/-- `RuntimeController._acquire_lock`.  `open(path, 'w')` creates the lock
file if absent and truncates it; then `flock(LOCK_EX | LOCK_NB)` is tried.
`otherHolder` says whether another process holds the advisory lock (flock
raises); on failure the handle is closed and set back to `None`; on success
the caller's thread ident `tid` is written into the file. -/
def acquireLock (otherHolder : Bool) (tid : String) (s : RState) : Bool × RState :=
  let s1 : RState :=
    { s with lockPathExists := true, lockContent := "", lockHandle := true }
  if otherHolder then
    (false, { s1 with lockHandle := false })
  else
    (true, { s1 with lockContent := tid })

/-- `RuntimeController._release_lock`: only acts when the handle is held
(`self._lock_file` is not `None`); it unlocks, closes, clears the handle and
unlinks the lock path if it exists. -/
def releaseLock (s : RState) : RState :=
  if s.lockHandle then
    { s with lockHandle := false, lockPathExists := false }
  else s

/-- `RuntimeController.start`.  Returns `False` at once when already running;
then tries the file lock (failure: return `False`); on success sets
`_running`, ensures the background event loop, and synchronously waits (5 s
timeout) for the collector-startup coroutine, whose outcome is the parameter
`collectorsOk`; a failure or timeout rolls back: `_running = False`,
`_release_lock()`, return `False`. -/
def start (otherHolder collectorsOk : Bool) (tid : String) (s : RState) :
    Bool × RState :=
  if s.running then (false, s)
  else
    let a := acquireLock otherHolder tid s
    if a.1 then
      let s2 := { a.2 with running := true, loopRunning := true }
      if collectorsOk then (true, s2)
      else (false, releaseLock { s2 with running := false })
    else (false, a.2)

/-- `RuntimeController.stop` (body under `self._stop_lock`): returns `False`
when not running; otherwise stops the collectors (bounded wait, failures only
logged), clears `_running`, releases the file lock, and stops the event
loop. -/
def stop (s : RState) : Bool × RState :=
  if s.running then
    let s1 := releaseLock { s with running := false }
    (true, { s1 with loopRunning := false })
  else (false, s)

/-- `RuntimeController.is_running`. -/
def isRunning (s : RState) : Bool := s.running

/-- `RuntimeController.register_reader`: increments the count under
`_reader_lock`. -/
def registerReader (s : RState) : RState :=
  { s with readerCount := s.readerCount + 1 }

/-- `RuntimeController.unregister_reader`: decrements the count; when the
result is `<= 0` it is clamped to 0 and, if no auto-stop is scheduled yet and
the event loop is running, a debounced stop (`call_later(0.5, ...)`) is
scheduled. -/
def unregisterReader (s : RState) : RState :=
  let c := s.readerCount - 1
  if c ≤ 0 then
    let s1 := { s with readerCount := 0 }
    if !s.autoStopScheduled && s.loopRunning then
      { s1 with autoStopScheduled := true }
    else s1
  else { s with readerCount := c }

/-- `RuntimeController._auto_stop_if_no_readers` (the debounce timer firing):
clears the scheduled flag, then stops the runtime iff the count is 0 and it
is still running. -/
def autoStopFire (s : RState) : RState :=
  let s1 := { s with autoStopScheduled := false }
  if s1.readerCount == 0 && s1.running then (stop s1).2 else s1

/-! ## Reader-count sequences (claim C1) -/

/-- One call in a `register_reader`/`unregister_reader` sequence. -/
inductive ReaderOp where
  | reg
  | unreg
  deriving DecidableEq, Repr

/-- Apply one reader call to the controller state. -/
def applyReaderOp (op : ReaderOp) (s : RState) : RState :=
  match op with
  | .reg => registerReader s
  | .unreg => unregisterReader s

/-- Run a whole sequence of reader calls, first call first. -/
def runReaderOps (ops : List ReaderOp) (s : RState) : RState :=
  match ops with
  | [] => s
  | op :: rest => runReaderOps rest (applyReaderOp op s)

/-- Number of `register_reader` (acquire) calls in a sequence. -/
def numReg : List ReaderOp → Nat
  | [] => 0
  | .reg :: l => numReg l + 1
  | .unreg :: l => numReg l

/-- Number of `unregister_reader` (release) calls in a sequence. -/
def numUnreg : List ReaderOp → Nat
  | [] => 0
  | .reg :: l => numUnreg l
  | .unreg :: l => numUnreg l + 1

theorem readerCount_applyReaderOp_nonneg (op : ReaderOp) (s : RState)
    (h : 0 ≤ s.readerCount) : 0 ≤ (applyReaderOp op s).readerCount := by
  cases op with
  | reg => simpa [applyReaderOp, registerReader] using le_trans h (by omega)
  | unreg =>
    simp only [applyReaderOp, unregisterReader]
    split
    · split <;> simp
    · simp
      omega

theorem readerCount_runReaderOps_nonneg (ops : List ReaderOp) (s : RState)
    (h : 0 ≤ s.readerCount) : 0 ≤ (runReaderOps ops s).readerCount := by
  induction ops generalizing s with
  | nil => simpa [runReaderOps] using h
  | cons op rest ih =>
    exact ih _ (readerCount_applyReaderOp_nonneg op s h)

theorem runReaderOps_count_of_balanced (ops : List ReaderOp) (s : RState)
    (h : ∀ n : Nat,
      0 ≤ s.readerCount + (numReg (ops.take n) : Int) - numUnreg (ops.take n)) :
    (runReaderOps ops s).readerCount
      = s.readerCount + (numReg ops : Int) - numUnreg ops := by
  induction ops generalizing s with
  | nil => simp [runReaderOps, numReg, numUnreg]
  | cons op rest ih =>
    cases op with
    | reg =>
      have hrec := ih (applyReaderOp .reg s) (fun n => by
        have := h (n + 1)
        simpa [List.take_succ_cons, numReg, numUnreg, applyReaderOp,
          registerReader] using (by
            have := h (n + 1)
            simp only [List.take_succ_cons, numReg, numUnreg] at this
            omega))
      simp only [runReaderOps] at hrec ⊢
      rw [hrec]
      simp [applyReaderOp, registerReader, numReg, numUnreg]
      omega
    | unreg =>
      have h1 : (1 : Int) ≤ s.readerCount := by
        have := h 1
        simp only [List.take_succ_cons, List.take_zero, numReg, numUnreg] at this
        omega
      have hstep : (applyReaderOp .unreg s).readerCount = s.readerCount - 1 := by
        simp only [applyReaderOp, unregisterReader]
        split
        · split <;> (simp; omega)
        · simp
      have hrec := ih (applyReaderOp .unreg s) (fun n => by
        have := h (n + 1)
        simp only [List.take_succ_cons, numReg, numUnreg] at this
        rw [hstep]
        omega)
      simp only [runReaderOps] at hrec ⊢
      rw [hrec, hstep]
      simp [numReg, numUnreg]
      omega

/-- C1 (amended): starting from a fresh controller, the reference count is
never negative after any prefix of a `register_reader`/`unregister_reader`
sequence; and provided no prefix contains more releases than acquires, the
final count equals (#acquires − #releases).  (Without the prefix condition
the subtraction formula fails, because each release is floored at 0
stepwise.) -/
theorem c1_reader_count (ops : List ReaderOp) :
    (∀ n : Nat, 0 ≤ (runReaderOps (ops.take n) freshState).readerCount) ∧
    ((∀ n : Nat, numUnreg (ops.take n) ≤ numReg (ops.take n)) →
      (runReaderOps ops freshState).readerCount
        = (numReg ops : Int) - numUnreg ops) := by
  constructor
  · intro n
    exact readerCount_runReaderOps_nonneg _ _ (by simp [freshState])
  · intro hbal
    have := runReaderOps_count_of_balanced ops freshState (fun n => by
      have := hbal n
      simp only [freshState]
      omega)
    simpa [freshState] using this

/-- C1 witness: the balanced sequence acquire, acquire, release has final
count 2 − 1 = 1, and no prefix ever shows a negative count. -/
theorem c1_reader_count_witness :
    (∀ n : Nat, 0 ≤ (runReaderOps (([ReaderOp.reg, ReaderOp.reg,
        ReaderOp.unreg]).take n) freshState).readerCount) ∧
    (runReaderOps [ReaderOp.reg, ReaderOp.reg, ReaderOp.unreg]
        freshState).readerCount
      = (numReg [ReaderOp.reg, ReaderOp.reg, ReaderOp.unreg] : Int)
        - numUnreg [ReaderOp.reg, ReaderOp.reg, ReaderOp.unreg] := by
  refine ⟨(c1_reader_count _).1, (c1_reader_count _).2 ?_⟩
  intro n
  match n with
  | 0 => decide
  | 1 => decide
  | 2 => decide
  | (m + 3) =>
    simp only [List.take_succ_cons, List.take_nil]
    decide

/-- C1 counterexample: for the sequence release-then-acquire the claim's
formula max(#acquire − #release, 0) = 0 disagrees with the code, which floors
at each release and ends at count 1. -/
theorem c1_counterexample :
    (runReaderOps [ReaderOp.unreg, ReaderOp.reg] freshState).readerCount = 1 ∧
    max ((numReg [ReaderOp.unreg, ReaderOp.reg] : Int)
      - numUnreg [ReaderOp.unreg, ReaderOp.reg]) 0 = 0 := by
  constructor
  · decide
  · decide

/-! ## Lifecycle claims C4, C5, C6, C7, C10 -/

/-- C4: `start()` is idempotent — on an already-running controller it returns
false with the state untouched; and when the file-lock acquisition fails
(another process holds it) it returns false and the running flag is unchanged
(still not running). -/
theorem c4_start_idempotent_lock_fail (s : RState) (oh cOk : Bool)
    (tid : String) :
    (s.running = true → start oh cOk tid s = (false, s)) ∧
    (s.running = false →
      (start true cOk tid s).1 = false ∧
      (start true cOk tid s).2.running = false) := by
  constructor
  · intro h
    simp [start, h]
  · intro h
    simp [start, h, acquireLock]

/-- C4 witness: on a controller that just started successfully, `start` is a
no-op returning false; on a fresh controller with the lock contended, `start`
returns false and stays not running. -/
theorem c4_start_idempotent_lock_fail_witness :
    ((start false true "t1" freshState).2.running = true ∧
      start false true "t2" (start false true "t1" freshState).2
        = (false, (start false true "t1" freshState).2)) ∧
    ((start true true "t1" freshState).1 = false ∧
      (start true true "t1" freshState).2.running = false) := by
  refine ⟨⟨by decide, ?_⟩, ?_⟩
  · exact (c4_start_idempotent_lock_fail
      (start false true "t1" freshState).2 false true "t2").1 (by decide)
  · exact (c4_start_idempotent_lock_fail freshState true true "t1").2 rfl

/-- C5: when the collector-startup coroutine fails or times out inside
`start()`, the call rolls back atomically: it returns false, the controller
is not running, the lock handle is dropped and the lock path is removed. -/
theorem c5_start_rollback (s : RState) (tid : String)
    (h : s.running = false) :
    (start false false tid s).1 = false ∧
    (start false false tid s).2.running = false ∧
    (start false false tid s).2.lockHandle = false ∧
    (start false false tid s).2.lockPathExists = false := by
  simp [start, h, acquireLock, releaseLock]

/-- C5 witness: rollback observed on a fresh controller. -/
theorem c5_start_rollback_witness :
    (start false false "t1" freshState).1 = false ∧
    (start false false "t1" freshState).2.running = false ∧
    (start false false "t1" freshState).2.lockHandle = false ∧
    (start false false "t1" freshState).2.lockPathExists = false :=
  c5_start_rollback freshState "t1" rfl

/-- C6: `stop()` on a non-running controller returns false and changes
nothing; on a running controller that holds the lock handle (which every
successful `start` establishes), after `stop()` the lock path does not exist
and `is_running()` is false. -/
theorem c6_stop_releases_lock (s : RState) :
    (s.running = false → stop s = (false, s)) ∧
    (s.running = true → s.lockHandle = true →
      (stop s).1 = true ∧
      (stop s).2.lockPathExists = false ∧
      isRunning (stop s).2 = false) := by
  constructor
  · intro h
    simp [stop, h]
  · intro h hl
    simp [stop, h, releaseLock, hl, isRunning]

/-- C6 witness: a fresh controller rejects `stop`; a started controller
stops with the lock path gone. -/
theorem c6_stop_releases_lock_witness :
    stop freshState = (false, freshState) ∧
    ((stop (start false true "t1" freshState).2).1 = true ∧
      (stop (start false true "t1" freshState).2).2.lockPathExists = false ∧
      isRunning (stop (start false true "t1" freshState).2).2 = false) :=
  ⟨(c6_stop_releases_lock freshState).1 rfl,
    (c6_stop_releases_lock (start false true "t1" freshState).2).2
      (by decide) (by decide)⟩

/-- C7: on a running controller whose single remaining reader unregisters,
the debounced auto-stop is scheduled; if the debounce timer then fires with
no intervening `register_reader`, the runtime is no longer running; if a
`register_reader` arrives before the timer fires, the fired timer does not
stop the runtime and `is_running()` stays true. -/
theorem c7_debounced_auto_stop (s : RState)
    (hRun : s.running = true) (hCount : s.readerCount = 1)
    (hSched : s.autoStopScheduled = false) (hLoop : s.loopRunning = true) :
    (unregisterReader s).autoStopScheduled = true ∧
    (unregisterReader s).readerCount = 0 ∧
    isRunning (autoStopFire (unregisterReader s)) = false ∧
    isRunning (autoStopFire (registerReader (unregisterReader s))) = true := by
  have hu : unregisterReader s
      = { s with readerCount := 0, autoStopScheduled := true } := by
    simp [unregisterReader, hCount, hSched, hLoop]
  refine ⟨by simp [hu], by simp [hu], ?_, ?_⟩
  · by_cases hl : s.lockHandle = true <;>
      simp [hu, autoStopFire, stop, hRun, releaseLock, isRunning, hl]
  · simp [hu, autoStopFire, registerReader, isRunning, hRun]

/-- C7 witness: start a controller, register one reader, then exercise both
debounce outcomes. -/
theorem c7_debounced_auto_stop_witness :
    (unregisterReader (registerReader (start false true "t1"
        freshState).2)).autoStopScheduled = true ∧
    (unregisterReader (registerReader (start false true "t1"
        freshState).2)).readerCount = 0 ∧
    isRunning (autoStopFire (unregisterReader (registerReader (start false
        true "t1" freshState).2))) = false ∧
    isRunning (autoStopFire (registerReader (unregisterReader (registerReader
        (start false true "t1" freshState).2)))) = true :=
  c7_debounced_auto_stop (registerReader (start false true "t1" freshState).2)
    (by decide) (by decide) (by decide) (by decide)

/-- C10: a failing `start()` against a lock held elsewhere still truncates
the lock file first: `open(path, 'w')` runs before the `flock` attempt, so
whatever identifier the current holder wrote is erased, even though the call
returns false, the controller stays not running and no handle is kept. -/
theorem c10_lock_fail_truncates (s : RState) (cOk : Bool) (tid : String)
    (h : s.running = false) :
    (start true cOk tid s).1 = false ∧
    (start true cOk tid s).2.lockContent = "" ∧
    (start true cOk tid s).2.lockPathExists = true ∧
    (start true cOk tid s).2.running = false ∧
    (start true cOk tid s).2.lockHandle = false := by
  simp [start, h, acquireLock]

/-- A stopped controller state observing the lock file of another live
holder, whose thread ident is written in it. -/
def heldElsewhere : RState :=
  { freshState with lockPathExists := true, lockContent := "other-holder" }

/-- C10 witness: a state carrying the other holder's identifier in the lock
file loses it on a denied `start`. -/
theorem c10_lock_fail_truncates_witness :
    heldElsewhere.lockContent ≠ "" ∧
    (start true true "me" heldElsewhere).1 = false ∧
    (start true true "me" heldElsewhere).2.lockContent = "" :=
  ⟨by decide,
    (c10_lock_fail_truncates heldElsewhere true "me" rfl).1,
    (c10_lock_fail_truncates heldElsewhere true "me" rfl).2.1⟩

/-! ## Persistence layer (`src/database.py`)

Python `str` values that undergo slicing/splitting are embedded as `List
Char` (`Str` below), so that `split`, `replace` and f-string concatenation
are plain list operations; strings only ever compared for equality stay
`String`. -/

abbrev Str := List Char

/-- The `data_type` argument of `DatabaseManager` operations; the source
enumerates exactly these eight in `_get_db_path`, `_create_tables` and
`insert_data`. -/
inductive DataKind where
  | ticker
  | orderbook
  | trades
  | ohlcv
  | balance
  | orders
  | mytrades
  | positions
  deriving DecidableEq, Repr

/-- The structured document passed to `insert_data`, reduced to the fields
the code reads: `data.get('timestamp')` (`none` when absent, in which case
the wall clock is used), `data.get('id', '')` (orders/fills),
`data.get('symbol', '')` (orders/fills/positions), and the serialized form
`json.dumps(data)`.  The numeric extractions (`price`, `amount`, `fee`, the
USDT balance) feed only REAL columns that never take part in any uniqueness
key and are not mentioned by any claim, so they are elided. -/
structure Payload where
  timestampField : Option Int
  idField : String
  symbolField : Str
  dump : String
  deriving DecidableEq, Repr

/-- One stored row.  `rowid` stands for the `INTEGER PRIMARY KEY
AUTOINCREMENT` surrogate (always fresh, so it never causes a conflict);
`idText` is the `TEXT PRIMARY KEY` of the orders/mytrades tables; `dateKey`
is the calendar-day bucket that the balance table stores as its
`datetime` text column (equal timestamps give equal buckets).  Unused
columns of a given table hold their defaults. -/
structure Row where
  rowid : Nat
  idText : String
  timestamp : Int
  symbol : Str
  timeframe : String
  dateKey : Int
  data : String
  deriving DecidableEq, Repr

abbrev Table := List Row

/-- `datetime.fromtimestamp(timestamp / 1000).strftime('%Y-%m-%d')`,
abstracted to the day index: the claims only need that equal timestamps land
in the same calendar bucket. -/
def dayOf (ts : Int) : Int := ts / 86400000

/-- Does row `a` collide with row `b` under the table's uniqueness
constraint, as declared by `_create_tables`: `UNIQUE(timestamp, symbol)` for
ticker and orderbook, `UNIQUE(timestamp, symbol, data)` for trades,
`UNIQUE(timestamp, symbol, timeframe)` for ohlcv, `UNIQUE(datetime)` for
balance, the `id TEXT PRIMARY KEY` for orders and mytrades, and no
constraint at all for positions. -/
def keyConflict (k : DataKind) (a b : Row) : Bool :=
  match k with
  | .ticker => a.timestamp == b.timestamp && a.symbol == b.symbol
  | .orderbook => a.timestamp == b.timestamp && a.symbol == b.symbol
  | .trades => a.timestamp == b.timestamp && a.symbol == b.symbol
      && a.data == b.data
  | .ohlcv => a.timestamp == b.timestamp && a.symbol == b.symbol
      && a.timeframe == b.timeframe
  | .balance => a.dateKey == b.dateKey
  | .orders => a.idText == b.idText
  | .mytrades => a.idText == b.idText
  | .positions => false

/-- Next value of the autoincrement surrogate key. -/
def nextRowId (t : Table) : Nat :=
  t.foldr (fun r m => max r.rowid m) 0 + 1

/-- The row that one `insert_data(exchange, symbol, data_type, data,
user_id, timeframe)` call binds into its SQL statement, per kind: the
timestamp is `data.get('timestamp', int(time.time() * 1000))` (clock value
`now`); ticker/orderbook/trades store the `symbol` argument; ohlcv adds the
`timeframe` argument; balance stores the day bucket of the timestamp and has
no symbol column; orders/mytrades store `data.get('id', '')` and
`data.get('symbol', '')`; positions stores `data.get('symbol', '')`. -/
def mkRow (k : DataKind) (symbol : Str) (timeframe : String) (p : Payload)
    (now : Int) (rid : Nat) : Row :=
  let ts := p.timestampField.getD now
  match k with
  | .ticker =>
    { rowid := rid, idText := "", timestamp := ts, symbol := symbol,
      timeframe := "", dateKey := 0, data := p.dump }
  | .orderbook =>
    { rowid := rid, idText := "", timestamp := ts, symbol := symbol,
      timeframe := "", dateKey := 0, data := p.dump }
  | .trades =>
    { rowid := rid, idText := "", timestamp := ts, symbol := symbol,
      timeframe := "", dateKey := 0, data := p.dump }
  | .ohlcv =>
    { rowid := rid, idText := "", timestamp := ts, symbol := symbol,
      timeframe := timeframe, dateKey := 0, data := p.dump }
  | .balance =>
    { rowid := rid, idText := "", timestamp := ts, symbol := [],
      timeframe := "", dateKey := dayOf ts, data := p.dump }
  | .orders =>
    { rowid := rid, idText := p.idField, timestamp := ts,
      symbol := p.symbolField, timeframe := "", dateKey := 0, data := p.dump }
  | .mytrades =>
    { rowid := rid, idText := p.idField, timestamp := ts,
      symbol := p.symbolField, timeframe := "", dateKey := 0, data := p.dump }
  | .positions =>
    { rowid := rid, idText := "", timestamp := ts,
      symbol := p.symbolField, timeframe := "", dateKey := 0, data := p.dump }

/-- The SQL statement `insert_data` issues: positions uses plain `INSERT`
(append); every other kind uses `INSERT OR REPLACE`, whose SQLite semantics
delete every row violating a uniqueness constraint against the new row, then
insert the new row. -/
def insertRow (k : DataKind) (r : Row) (t : Table) : Table :=
  match k with
  | .positions => t ++ [r]
  | _ => t.filter (fun x => !keyConflict k x r) ++ [r]

/-- `DatabaseManager.insert_data` restricted to the shard table it writes
(resolution of the shard path is `getDbPath` below; connection pooling and
lazy `_create_tables` do not change table contents).  The single-dict case
is modelled; the trades list branch executes the very same statement once
per element. -/
def insertData (k : DataKind) (symbol : Str) (timeframe : String)
    (p : Payload) (now : Int) (t : Table) : Table :=
  insertRow k (mkRow k symbol timeframe p now (nextRowId t)) t

/-- Insert into a list sorted by non-increasing timestamp, keeping the new
row after rows with an equal or larger timestamp. -/
def insertTs (r : Row) : List Row → List Row
  | [] => [r]
  | x :: xs => if r.timestamp ≤ x.timestamp then x :: insertTs r xs
               else r :: x :: xs

/-- `ORDER BY timestamp DESC`: one concrete order among those SQLite may
return (SQLite fixes no order between equal timestamps). -/
def sortDesc (l : List Row) : List Row := l.foldr insertTs []

/-- The `WHERE` clause `get_data` builds: ticker/orderbook/ohlcv filter on
the symbol column (ohlcv also on timeframe when that argument is truthy);
trades gets no symbol filter; private kinds filter on symbol only when the
argument is truthy; `timestamp >= start_time` / `timestamp <= end_time` are
added only for truthy bounds (`None` and `0` are falsy in Python). -/
def rowMatches (k : DataKind) (symbol : Str) (tf : Option String)
    (startTime endTime : Option Int) (r : Row) : Bool :=
  (match k with
   | .ticker | .orderbook | .ohlcv =>
     r.symbol == symbol &&
       (match k, tf with
        | .ohlcv, some tfv => if tfv == "" then true else r.timeframe == tfv
        | _, _ => true)
   | .trades => true
   | .balance | .orders | .mytrades | .positions =>
     if symbol.isEmpty then true else r.symbol == symbol) &&
  (match startTime with
   | some b => if b == 0 then true else decide (b ≤ r.timestamp)
   | none => true) &&
  (match endTime with
   | some b => if b == 0 then true else decide (r.timestamp ≤ b)
   | none => true)

/-- The rows `DatabaseManager.get_data` fetches from the shard table,
newest first, at most `limit` of them.  Asking the balance table for a
truthy symbol makes the built SQL reference a column that table does not
have; the raised `sqlite3` error is caught and the method returns `[]`. -/
def getRows (k : DataKind) (symbol : Str) (tf : Option String)
    (startTime endTime : Option Int) (limit : Nat) (t : Table) : List Row :=
  if k == DataKind.balance && !symbol.isEmpty then []
  else (sortDesc (t.filter (rowMatches k symbol tf startTime endTime))).take
    limit

/-- `get_data`'s return value: the parsed `data` column of each fetched
row. -/
def getData (k : DataKind) (symbol : Str) (tf : Option String)
    (startTime endTime : Option Int) (limit : Nat) (t : Table) :
    List String :=
  (getRows k symbol tf startTime endTime limit t).map Row.data

/-! ## Shard-path routing (`DatabaseManager._get_db_path`) -/

/-- `symbol.replace('/', '_')`. -/
def sanitizeSymbol (s : Str) : Str :=
  s.map (fun c => if c = '/' then '_' else c)

/-- Python `str.split(sep)` (split at every occurrence). -/
def splitAll (sep : Char) : Str → List Str
  | [] => [[]]
  | c :: cs =>
    let r := splitAll sep cs
    if c = sep then [] :: r
    else
      match r with
      | [] => [[c]]
      | p :: ps => (c :: p) :: ps

/-- Python `str.split(sep, 1)`: `none` when `sep` does not occur, otherwise
the pieces before and after its first occurrence. -/
def splitFirst (sep : Char) : Str → Option (Str × Str)
  | [] => none
  | c :: cs =>
    if c = sep then some ([], cs)
    else (splitFirst sep cs).map (fun q => (c :: q.1, q.2))

/-- File base name of a private shard: when `'_' in user_id`, the name is
`f"{api_prefix}_{account_name}"` with `api_prefix, account_name =
user_id.split('_', 1)`; otherwise the prefix falls back to `"default"` and
the whole `user_id` is the account name. -/
def privFileBase (userId : Str) : Str :=
  if '_' ∈ userId then
    match splitFirst '_' userId with
    | some q => q.1 ++ '_' :: q.2
    | none => []
  else "default".data ++ '_' :: userId

/-- A shard path `data_dir/exchange/category/file.db`, as the components
`_get_db_path` joins below the fixed `data_dir`: the venue directory, the
category directory (`spot`, `futures` or `private`) and the database file
name. -/
structure DbPath where
  exchange : Str
  category : Str
  file : Str
  deriving DecidableEq, Repr

/-- `DatabaseManager._get_db_path`.  Public kinds route to
`exchange/futures/{base_quote}_{settlement}.db` when the symbol carries a
`:` settlement suffix (`parts = symbol.split(':')`, `parts[0]` with `/`
replaced, `parts[1]`), else to `exchange/spot/{safe_symbol}.db`; private
kinds route to `exchange/private/{privFileBase user_id}.db`.  The
trailing `else` of the source is unreachable because the eight kinds
exhaust both membership tests. -/
def getDbPath (exchange symbol : Str) (dataType : DataKind) (userId : Str) :
    DbPath :=
  match dataType with
  | .ticker | .orderbook | .trades | .ohlcv =>
    if ':' ∈ symbol then
      let parts := splitAll ':' symbol
      { exchange := exchange, category := "futures".data,
        file := sanitizeSymbol (parts.headD []) ++ '_' :: parts.getD 1 []
          ++ ".db".data }
    else
      { exchange := exchange, category := "spot".data,
        file := sanitizeSymbol symbol ++ ".db".data }
  | .balance | .orders | .mytrades | .positions =>
    { exchange := exchange, category := "private".data,
      file := privFileBase userId ++ ".db".data }

/-- The public-kind predicate of `_get_db_path`'s first membership test. -/
def IsPublicKind (k : DataKind) : Prop :=
  k = DataKind.ticker ∨ k = DataKind.orderbook ∨ k = DataKind.trades
    ∨ k = DataKind.ohlcv

/-- The private-kind predicate of `_get_db_path`'s second membership test. -/
def IsPrivateKind (k : DataKind) : Prop :=
  k = DataKind.balance ∨ k = DataKind.orders ∨ k = DataKind.mytrades
    ∨ k = DataKind.positions

/-- The one way two distinct `user_id` values can produce the same private
file name: one of them contains no underscore and the other is exactly
`default_` followed by it. -/
abbrev DefaultCollision (u v : Str) : Prop :=
  ('_' ∉ u ∧ v = "default".data ++ '_' :: u) ∨
  ('_' ∉ v ∧ u = "default".data ++ '_' :: v)

theorem splitFirst_reconstruct (sep : Char) :
    ∀ (s a b : Str), splitFirst sep s = some (a, b) → s = a ++ sep :: b := by
  intro s
  induction s with
  | nil => intro a b h; simp [splitFirst] at h
  | cons c cs ih =>
    intro a b h
    simp only [splitFirst] at h
    by_cases hc : c = sep
    · simp only [hc, if_pos rfl] at h
      obtain ⟨ha, hb⟩ := Prod.mk.injEq .. ▸ Option.some.injEq .. ▸ h
      subst hc
      simp [← ha, ← hb]
    · rw [if_neg hc] at h
      cases hsp : splitFirst sep cs with
      | none => rw [hsp] at h; simp at h
      | some q =>
        rw [hsp] at h
        simp only [Option.map_some', Option.some.injEq] at h
        have hr := ih q.1 q.2 (by rw [hsp])
        have ha : a = c :: q.1 := congrArg Prod.fst h.symm
        have hb : b = q.2 := congrArg Prod.snd h.symm
        subst ha hb
        simp [hr]

theorem splitFirst_isSome_of_mem (sep : Char) :
    ∀ (s : Str), sep ∈ s → (splitFirst sep s).isSome = true := by
  intro s
  induction s with
  | nil => intro h; simp at h
  | cons c cs ih =>
    intro h
    simp only [splitFirst]
    by_cases hc : c = sep
    · simp [hc]
    · rw [if_neg hc]
      rcases List.mem_cons.mp h with h1 | h1
      · exact absurd h1.symm hc
      · cases hsp : splitFirst sep cs with
        | none => rw [hsp] at ih; simpa using ih h1
        | some q => simp [hsp]

theorem privFileBase_of_mem (u : Str) (h : '_' ∈ u) : privFileBase u = u := by
  have hs := splitFirst_isSome_of_mem '_' u h
  cases hsp : splitFirst '_' u with
  | none => rw [hsp] at hs; simp at hs
  | some q =>
    simp only [privFileBase, if_pos h, hsp]
    exact (splitFirst_reconstruct '_' u q.1 q.2 (by rw [hsp])).symm

theorem privFileBase_of_not_mem (u : Str) (h : '_' ∉ u) :
    privFileBase u = "default".data ++ '_' :: u := by
  simp [privFileBase, h]

theorem privFileBase_eq_cases (u v : Str)
    (h : privFileBase u = privFileBase v) : u = v ∨ DefaultCollision u v := by
  by_cases hu : '_' ∈ u <;> by_cases hv : '_' ∈ v
  · rw [privFileBase_of_mem u hu, privFileBase_of_mem v hv] at h
    exact Or.inl h
  · rw [privFileBase_of_mem u hu, privFileBase_of_not_mem v hv] at h
    exact Or.inr (Or.inr ⟨hv, h⟩)
  · rw [privFileBase_of_not_mem u hu, privFileBase_of_mem v hv] at h
    exact Or.inr (Or.inl ⟨hu, h.symm⟩)
  · rw [privFileBase_of_not_mem u hu, privFileBase_of_not_mem v hv] at h
    have := List.append_cancel_left h
    exact Or.inl (List.cons.injEq .. ▸ this).2

/-! ## Helper lemmas for the persistence claims -/

theorem filter_after_filter_not {α : Type} (p : α → Bool) (l : List α) :
    (l.filter fun x => !p x).filter p = [] := by
  induction l with
  | nil => rfl
  | cons a l ih =>
    by_cases h : p a = true <;> simp [List.filter_cons, h, ih]

theorem keyConflict_self (k : DataKind) (h : k ≠ DataKind.positions)
    (r : Row) : keyConflict k r r = true := by
  cases k <;> first
    | exact absurd rfl h
    | simp [keyConflict]

theorem mem_insertTs {y r : Row} {l : List Row} (h : y ∈ insertTs r l) :
    y = r ∨ y ∈ l := by
  induction l with
  | nil => simpa [insertTs] using h
  | cons x xs ih =>
    simp only [insertTs] at h
    split at h
    · rcases List.mem_cons.mp h with h1 | h2
      · exact Or.inr (by simp [h1])
      · rcases ih h2 with h3 | h3
        · exact Or.inl h3
        · exact Or.inr (List.mem_cons_of_mem _ h3)
    · rcases List.mem_cons.mp h with h1 | h2
      · exact Or.inl h1
      · exact Or.inr h2

theorem pairwise_insertTs (r : Row) (l : List Row)
    (h : l.Pairwise fun a b => b.timestamp ≤ a.timestamp) :
    (insertTs r l).Pairwise fun a b => b.timestamp ≤ a.timestamp := by
  induction l with
  | nil => simp [insertTs]
  | cons x xs ih =>
    rcases List.pairwise_cons.mp h with ⟨hx, hxs⟩
    simp only [insertTs]
    split
    · refine List.pairwise_cons.mpr ⟨?_, ih hxs⟩
      intro y hy
      rcases mem_insertTs hy with h1 | h1
      · subst h1; assumption
      · exact hx y h1
    · refine List.pairwise_cons.mpr ⟨?_, h⟩
      intro y hy
      rcases List.mem_cons.mp hy with h1 | h1
      · subst h1; omega
      · have := hx y h1
        omega

theorem sortDesc_pairwise (l : List Row) :
    (sortDesc l).Pairwise fun a b => b.timestamp ≤ a.timestamp := by
  induction l with
  | nil => simp [sortDesc]
  | cons x xs ih => simpa [sortDesc] using pairwise_insertTs x _ ih

/-! ## Persistence claims C2, C3, C9 -/

/-- C2: for each public kind, a second `insert_data` whose constructed row
has the same dedup key as the first — `(timestamp, symbol)` for
ticker/orderbook, `(timestamp, symbol, timeframe)` for ohlcv, `(timestamp,
symbol, data)` for trades — leaves exactly one row with that key in the
table, and that row carries the second write's payload. -/
theorem c2_upsert_single_row (k : DataKind)
    (hk : k = DataKind.ticker ∨ k = DataKind.orderbook
      ∨ k = DataKind.trades ∨ k = DataKind.ohlcv)
    (sym1 sym2 : Str) (tf1 tf2 : String) (p1 p2 : Payload) (n1 n2 : Int)
    (t : Table)
    (hkey : keyConflict k (mkRow k sym1 tf1 p1 n1 (nextRowId t))
      (mkRow k sym2 tf2 p2 n2 (nextRowId (insertData k sym1 tf1 p1 n1 t)))
      = true) :
    (insertData k sym2 tf2 p2 n2 (insertData k sym1 tf1 p1 n1 t)).filter
        (fun x => keyConflict k x
          (mkRow k sym2 tf2 p2 n2
            (nextRowId (insertData k sym1 tf1 p1 n1 t))))
      = [mkRow k sym2 tf2 p2 n2
          (nextRowId (insertData k sym1 tf1 p1 n1 t))] ∧
    (mkRow k sym2 tf2 p2 n2
      (nextRowId (insertData k sym1 tf1 p1 n1 t))).data = p2.dump := by
  have hmain : ∀ k2, k2 ≠ DataKind.positions →
      ∀ (r : Row) (tb : Table),
        (insertRow k2 r tb).filter (fun x => keyConflict k2 x r) = [r] := by
    intro k2 hk2 r tb
    cases k2 <;> first
      | exact absurd rfl hk2
      | · simp only [insertRow, List.filter_append, filter_after_filter_not]
          simp [List.filter_cons, keyConflict]
  rcases hk with h | h | h | h <;> subst h <;>
    exact ⟨hmain _ (by simp) _ _, rfl⟩

/-- Sample payloads and tables for the C2 witness: two ticker writes with
the same timestamp and symbol but different documents. -/
def exTickerOld : Payload := ⟨some 5, "", [], "old"⟩

def exTickerNew : Payload := ⟨some 5, "", [], "new"⟩

def exTickerT1 : Table :=
  insertData DataKind.ticker ['a'] "" exTickerOld 0 []

def exTickerRow2 : Row :=
  mkRow DataKind.ticker ['a'] "" exTickerNew 0 (nextRowId exTickerT1)

/-- C2 witness: the concrete two-write ticker scenario, same `(timestamp,
symbol)` key, different payloads. -/
theorem c2_upsert_single_row_witness :
    (insertData DataKind.ticker ['a'] "" exTickerNew 0 exTickerT1).filter
        (fun x => keyConflict DataKind.ticker x exTickerRow2)
      = [exTickerRow2] ∧
    exTickerRow2.data = "new" :=
  c2_upsert_single_row DataKind.ticker (Or.inl rfl) ['a'] ['a'] "" ""
    exTickerOld exTickerNew 0 0 [] (by decide)

/-- The scenario table of C3: three ticker records for `BTC/USDT` with
timestamps 100, 200 and 300. -/
def tickerDemoTable : Table :=
  insertData DataKind.ticker "BTC/USDT".data "" ⟨some 300, "", [], "d300"⟩ 0
    (insertData DataKind.ticker "BTC/USDT".data "" ⟨some 200, "", [], "d200"⟩
      0
      (insertData DataKind.ticker "BTC/USDT".data ""
        ⟨some 100, "", [], "d100"⟩ 0 []))

/-- C3 (amended): `get_data` never returns more than `limit` records, they
come ordered by non-increasing (descending, ties possible) timestamp, an
empty table yields an empty sequence rather than an error, and in the
concrete ticker scenario (writes at 100, 200, 300; `limit = 2`) it returns
the records with timestamps 300 then 200.  Strict descent is what the claim
states but does not hold for every kind (see the counterexample). -/
theorem c3_read_bounded_descending :
    (∀ (k : DataKind) (symbol : Str) (tf : Option String)
        (startTime endTime : Option Int) (limit : Nat) (t : Table),
      (getRows k symbol tf startTime endTime limit t).length ≤ limit ∧
      (getRows k symbol tf startTime endTime limit t).Pairwise
        (fun a b => b.timestamp ≤ a.timestamp) ∧
      (t = [] → getRows k symbol tf startTime endTime limit t = [])) ∧
    ((getRows DataKind.ticker "BTC/USDT".data none none none 2
        tickerDemoTable).map Row.timestamp = [300, 200] ∧
      getData DataKind.ticker "BTC/USDT".data none none none 2
        tickerDemoTable = ["d300", "d200"]) := by
  constructor
  · intro k symbol tf startTime endTime limit t
    refine ⟨?_, ?_, ?_⟩
    · simp only [getRows]
      split
      · simp
      · exact le_trans (List.length_take_le _ _) le_rfl
    · simp only [getRows]
      split
      · simp
      · exact (sortDesc_pairwise _).sublist (List.take_sublist _ _)
    · intro ht
      subst ht
      simp [getRows, sortDesc]
  · constructor
    · decide
    · decide

/-- C3 witness: the empty-table case of the read contract at concrete
arguments. -/
theorem c3_read_bounded_descending_witness :
    getRows DataKind.ticker ['a'] none none none 3 [] = [] :=
  (c3_read_bounded_descending.1 DataKind.ticker ['a'] none none none 3
    []).2.2 rfl

/-- Two trades for the same symbol with the same timestamp and different
payloads: legal under `UNIQUE(timestamp, symbol, data)`. -/
def tradesDupTable : Table :=
  insertData DataKind.trades "BTC/USDT".data "" ⟨some 1000, "", [], "pB"⟩ 0
    (insertData DataKind.trades "BTC/USDT".data "" ⟨some 1000, "", [], "pA"⟩
      0 [])

/-- C3 counterexample: a trades read returns two records with equal
timestamps, so the output is not ordered by strictly descending
timestamp. -/
theorem c3_counterexample :
    (getRows DataKind.trades "BTC/USDT".data none none none 10
        tradesDupTable).map Row.timestamp = [1000, 1000] ∧
    ¬ (getRows DataKind.trades "BTC/USDT".data none none none 10
        tradesDupTable).Pairwise (fun a b => b.timestamp < a.timestamp) := by
  constructor
  · decide
  · decide

/-- C9: positions inserts are pure appends — writing the identical record
twice stores two rows (with distinct autoincrement ids 1 and 2) — while for
every other kind the second identical write replaces the first, leaving a
single row. -/
theorem c9_positions_append_only (k : DataKind) (sym : Str) (tf : String)
    (p : Payload) (n : Int) :
    ((insertData DataKind.positions sym tf p n
        (insertData DataKind.positions sym tf p n [])).map Row.rowid
      = [1, 2]) ∧
    (k ≠ DataKind.positions →
      (insertData k sym tf p n (insertData k sym tf p n [])).length = 1) := by
  constructor
  · rfl
  · intro hk
    cases k <;> first
      | exact absurd rfl hk
      | simp [insertData, insertRow, mkRow, nextRowId, keyConflict,
          List.filter_cons]

/-- C9 witness: a concrete ticker record written twice leaves one row. -/
theorem c9_positions_append_only_witness :
    (insertData DataKind.ticker ['a'] "" ⟨some 7, "", [], "pp"⟩ 0
        (insertData DataKind.ticker ['a'] "" ⟨some 7, "", [], "pp"⟩ 0
          [])).length = 1 :=
  (c9_positions_append_only DataKind.ticker ['a'] "" ⟨some 7, "", [], "pp"⟩
    0).2 (by decide)

/-! ## Shard isolation claim C8 -/

/-- C8 (amended): a public kind and a private kind never resolve to the same
shard path; and two distinct `user_id` values resolve private kinds to
distinct shard paths, except in the forced collision case where one
`user_id` contains no underscore and the other is exactly `default_`
followed by it. -/
theorem c8_shard_isolation :
    (∀ (e1 s1 u1 e2 s2 u2 : Str) (kPub kPriv : DataKind),
      IsPublicKind kPub → IsPrivateKind kPriv →
      getDbPath e1 s1 kPub u1 ≠ getDbPath e2 s2 kPriv u2) ∧
    (∀ (e1 s1 e2 s2 u v : Str) (k1 k2 : DataKind),
      IsPrivateKind k1 → IsPrivateKind k2 → u ≠ v →
      ¬ DefaultCollision u v →
      getDbPath e1 s1 k1 u ≠ getDbPath e2 s2 k2 v) := by
  constructor
  · intro e1 s1 u1 e2 s2 u2 kPub kPriv hPub hPriv heq
    have hcat := congrArg DbPath.category heq
    rcases hPub with h | h | h | h <;> subst h <;>
      rcases hPriv with h | h | h | h <;> subst h <;>
      simp only [getDbPath] at hcat <;>
      split at hcat <;>
      dsimp only at hcat <;>
      exact absurd hcat (by decide)
  · intro e1 s1 e2 s2 u v k1 k2 h1 h2 hne hcol heq
    have hfile := congrArg DbPath.file heq
    rcases h1 with h | h | h | h <;> subst h <;>
      rcases h2 with h | h | h | h <;> subst h <;>
      · simp only [getDbPath] at hfile
        have hbase := List.append_cancel_right hfile
        rcases privFileBase_eq_cases u v hbase with h | h
        · exact hne h
        · exact hcol h

/-- C8 witness: ticker and balance shards for the same venue and symbol are
distinct; and the non-colliding pair `a_1` vs `b_2` lands in distinct
private shards. -/
theorem c8_shard_isolation_witness :
    getDbPath "alpha".data "BTC/USDT".data DataKind.ticker []
        ≠ getDbPath "alpha".data "BTC/USDT".data DataKind.balance "a_1".data ∧
    getDbPath "alpha".data "BTC/USDT".data DataKind.balance "a_1".data
        ≠ getDbPath "alpha".data "BTC/USDT".data DataKind.orders "b_2".data :=
  ⟨c8_shard_isolation.1 "alpha".data "BTC/USDT".data [] "alpha".data
      "BTC/USDT".data "a_1".data DataKind.ticker DataKind.balance
      (Or.inl rfl) (Or.inl rfl),
    c8_shard_isolation.2 "alpha".data "BTC/USDT".data "alpha".data
      "BTC/USDT".data "a_1".data "b_2".data DataKind.balance DataKind.orders
      (Or.inl rfl) (Or.inr (Or.inl rfl)) (by decide) (by decide)⟩

/-- C8 counterexample: the distinct account identities `default_x` and `x`
are routed to the same private shard path. -/
theorem c8_counterexample :
    ("default_x".data : Str) ≠ "x".data ∧
    getDbPath "alpha".data "BTC/USDT".data DataKind.balance "default_x".data
      = getDbPath "alpha".data "BTC/USDT".data DataKind.balance "x".data := by
  constructor
  · decide
  · decide

end MarketConditions
